import Mathlib

/-!
Shallow embedding of the routing/handshake core of package `bon` (bon.go).

The Go code routes `net.Conn` values: an initiator calls `Connect(r)`, which
opens a connection through a `Transporter`, writes the route `r` as a 4-byte
big-endian integer and reads a 4-byte big-endian status back; the receiver
side runs `Run`, an accept loop that hands each accepted connection to
`handleConn`, which reads the route tag, resolves a handler (exact map entry
first, then the non-matching fallback), writes the status code and either
invokes the handler or closes the connection.

A connection is modelled as the trace-relevant state of a `net.Conn`:
the bytes this side has written (`sent`), the list of results that successive
`Read` calls deliver (`recv`, each entry an error or a chunk of bytes), the
results of successive `Write` calls (`writeRes`, an empty list meaning every
write succeeds) and whether this side has closed it (`closed`).
Machine integers are `Nat` with explicit `% 2 ^ 32` where Go truncates.
-/

namespace Bon

/-- Go `error` values reaching the routing core: an end-of-stream,
an arbitrary transporter or I/O fault identified by a numeric code, and
`HandlerError` (bon.go lines 241-249), which carries the requested route. -/
inductive Err where
  | eof : Err
  | fault (code : Nat) : Err
  | handler (route : Nat) : Err
deriving DecidableEq, Repr

deriving instance DecidableEq for Except

/-- State of one `net.Conn` as seen by the routing core. -/
structure Conn where
  /-- bytes written on the connection by this side so far -/
  sent : List Nat
  /-- what successive `Read` calls deliver: an error, or a chunk of bytes;
  a `Read` into a 4-byte buffer consumes at most 4 bytes of the first chunk -/
  recv : List (Except Err (List Nat))
  /-- result of each successive `Write` call; `[]` means all writes succeed -/
  writeRes : List (Option Err)
  /-- whether this side has closed the connection -/
  closed : Bool
deriving DecidableEq, Repr

/-- `binary.BigEndian.Uint32`: big-endian value of a byte list
(each entry taken mod 256, as Go bytes are). -/
def beUint32 (bytes : List Nat) : Nat :=
  bytes.foldl (fun acc b => acc * 256 + b % 256) 0

/-- `binary.BigEndian.PutUint32`: 4-byte big-endian encoding of a 32-bit
value (the argument truncated mod 2^32, as the Go uint32 cast does). -/
def putUint32BE (data : Nat) : List Nat :=
  [data % 2 ^ 32 / 2 ^ 24, data % 2 ^ 24 / 2 ^ 16, data % 2 ^ 16 / 2 ^ 8, data % 2 ^ 8]

/-- bon.go lines 221-226, `writeUInt32`: encode `data` big-endian into a
4-byte buffer and issue one `Write`; the result of the write call comes from
the head of `writeRes` (success when the list is empty). -/
def writeUInt32 (c : Conn) (data : Nat) : Except Err Conn :=
  match c.writeRes with
  | [] => .ok { c with sent := c.sent ++ putUint32BE data }
  | none :: rest => .ok { c with sent := c.sent ++ putUint32BE data, writeRes := rest }
  | some e :: _ => .error e

/-- bon.go lines 228-236, `readUInt32`: allocate a zero 4-byte buffer, issue
a SINGLE `conn.Read(buf)` (the returned byte count is ignored and there is no
loop to fill the buffer), then interpret the whole buffer big-endian.
A read delivers at most 4 bytes of the first available chunk; bytes the call
did not deliver stay in the stream, and the unfilled tail of the buffer
remains zero. -/
def readUInt32 (c : Conn) : Except Err (Nat × Conn) :=
  match c.recv with
  | [] => .error .eof
  | .error e :: _ => .error e
  | .ok chunk :: rest =>
      let taken := chunk.take 4
      let buf := taken ++ List.replicate (4 - taken.length) 0
      let recvRest := if chunk.drop 4 = [] then rest else .ok (chunk.drop 4) :: rest
      .ok (beUint32 buf, { c with recv := recvRest })

/-- bon.go lines 121-125: the three status codes, `1 << iota`. -/
def handlerExists : Nat := 1

/-- Second status code of bon.go lines 121-125: fallback match, `1 << 1`. -/
def nonMatchingHandlerExists : Nat := 2

/-- Third status code of bon.go lines 121-125: no match, `1 << 2`. -/
def handlerDoesNotExists : Nat := 4

/-- The `handlers map[Route]func(net.Conn)` field: a finite map from routes
to stored handler values. The outer `Option` is key presence; the inner
`Option H` is the stored Go function value, which may itself be nil
(`none`). `H` abstracts over the handler body. -/
def RouteMap (H : Type) : Type := Nat → Option (Option H)

/-- bon.go lines 93-97, `Handle`: store `h` (possibly nil) under key `r`,
overwriting any previous entry. -/
def Handle {H : Type} (m : RouteMap H) (r : Nat) (h : Option H) : RouteMap H :=
  fun x => if x = r then some h else m x

/-- bon.go lines 108-112, `Off`: `delete(b.handlers, r)`; a no-op when the
key is absent. -/
def Off {H : Type} (m : RouteMap H) (r : Nat) : RouteMap H :=
  fun x => if x = r then none else m x

/-- Go map indexing `b.handlers[Route(data)]` (bon.go line 188): an absent
key yields the zero value nil, indistinguishable from a stored nil entry. -/
def mapIndex {H : Type} (m : RouteMap H) (r : Nat) : Option H :=
  match m r with
  | none => none
  | some h => h

/-- bon.go lines 186-202: resolve the handler and the status code for a
received route tag. The exact-map entry is read once under `hm.RLock`
(line 188). The non-matching fallback slot is read TWICE when the exact
entry is nil: once under `nhm.RLock` (line 195, modelled by `fb1`) to decide
the status, and once more, outside any lock, at line 200 (modelled by
`fb2`) to pick the handler actually invoked. In a race-free execution the
two reads agree (`fb1 = fb2`); keeping them as separate parameters lets an
interleaving with a concurrent `HandleNonMatching` or `OffNonMatching`
write be expressed by instantiating them differently. -/
def lookupDispatch {H : Type} (m : RouteMap H) (fb1 fb2 : Option H) (r : Nat) :
    Nat × Option H :=
  match mapIndex m r with
  | some h => (handlerExists, some h)
  | none =>
      match fb1 with
      | some _ => (nonMatchingHandlerExists, fb2)
      | none => (handlerDoesNotExists, none)

/-- Outcome of `handleConn` for one accepted connection. -/
inductive HandleOutcome (H : Type) where
  /-- reading the route tag failed: the error is logged and the function
  returns without invoking any handler (bon.go lines 180-184) -/
  | abandonedRead (e : Err) : HandleOutcome H
  /-- writing the status failed: logged, no handler invoked (lines 205-209) -/
  | abandonedWrite (e : Err) : HandleOutcome H
  /-- a handler was found: the status was written and the handler `h` was
  invoked with full ownership of the connection (line 212) -/
  | dispatched (status : Nat) (h : H) (conn : Conn) : HandleOutcome H
  /-- no handler: the status was written and the Router closed the
  connection itself (lines 213-218) -/
  | rejected (status : Nat) (conn : Conn) : HandleOutcome H
deriving DecidableEq, Repr

/-- bon.go lines 178-219, `handleConn`: read the 4-byte route tag, resolve
the handler and status (`fb1`, `fb2` are the two reads of the fallback slot,
see `lookupDispatch`), write the 4-byte status, then invoke the handler if
one was found, else close the connection. -/
def handleConn {H : Type} (m : RouteMap H) (fb1 fb2 : Option H) (conn : Conn) :
    HandleOutcome H :=
  match readUInt32 conn with
  | .error e => .abandonedRead e
  | .ok (data, conn1) =>
      match lookupDispatch m fb1 fb2 data with
      | (status, h) =>
          match writeUInt32 conn1 status with
          | .error e => .abandonedWrite e
          | .ok conn2 =>
              match h with
              | some hh => .dispatched status hh conn2
              | none => .rejected status { conn2 with closed := true }

/-- The `sent` bytes of the connection at the moment `handleConn` hands it
off (to a handler, or to `Close`); `none` when the handshake was abandoned. -/
def HandleOutcome.sentBytes {H : Type} : HandleOutcome H → Option (List Nat)
  | .dispatched _ _ c => some c.sent
  | .rejected _ c => some c.sent
  | _ => none

/-- bon.go lines 129-155, `Connect`: open a connection through the
transporter (`openRes` is the result of `transporter.Open(r)`), write the
route as a 4-byte big-endian integer, read the 4-byte status back, and
return the connection when the status is `handlerExists` or
`nonMatchingHandlerExists`, else a `HandlerError` carrying `r`. Every error
on the way is returned verbatim with no connection. -/
def Connect (r : Nat) (openRes : Except Err Conn) : Except Err Conn :=
  match openRes with
  | .error e => .error e
  | .ok conn =>
      match writeUInt32 conn r with
      | .error e => .error e
      | .ok conn1 =>
          match readUInt32 conn1 with
          | .error e => .error e
          | .ok (data, conn2) =>
              if data = handlerExists then .ok conn2
              else if data = nonMatchingHandlerExists then .ok conn2
              else .error (.handler r)

/-- bon.go lines 159-167, `Run`: loop on `transporter.Accept()`; each
successful accept spawns `go b.handleConn(conn)` (the spawned connections
are collected in the second component and never consulted for the result);
the first accept error ends the loop and is returned. Modelled on a finite
prefix of accept results: `none` in the first component means the loop is
still running after consuming the whole prefix. -/
def runLoop (accepts : List (Except Err Conn)) : Option Err × List Conn :=
  match accepts with
  | [] => (none, [])
  | .error e :: _ => (some e, [])
  | .ok c :: rest =>
      let p := runLoop rest
      (p.1, c :: p.2)

theorem beUint32_putUint32BE (d : Nat) : beUint32 (putUint32BE d) = d % 2 ^ 32 := by
  simp only [beUint32, putUint32BE, List.foldl]
  omega

theorem putUint32BE_length (d : Nat) : (putUint32BE d).length = 4 := rfl

/-- Evaluating `readUInt32` when the first chunk is exactly 4 bytes. -/
theorem readUInt32_four (sent : List Nat) (b0 b1 b2 b3 : Nat)
    (tail : List (Except Err (List Nat))) (wr : List (Option Err)) (cl : Bool) :
    readUInt32 ⟨sent, .ok [b0, b1, b2, b3] :: tail, wr, cl⟩ =
      .ok (beUint32 [b0, b1, b2, b3], ⟨sent, tail, wr, cl⟩) := by
  simp [readUInt32]

/-- Evaluating `readUInt32` when the first chunk is the 4-byte big-endian
encoding of a 32-bit value: the value comes back and the chunk is consumed. -/
theorem readUInt32_put (s : Nat) (hs : s < 2 ^ 32) (sent : List Nat)
    (tail : List (Except Err (List Nat))) (wr : List (Option Err)) (cl : Bool) :
    readUInt32 ⟨sent, .ok (putUint32BE s) :: tail, wr, cl⟩ =
      .ok (s, ⟨sent, tail, wr, cl⟩) :=
  calc readUInt32 ⟨sent, .ok (putUint32BE s) :: tail, wr, cl⟩
      = .ok (beUint32 (putUint32BE s), ⟨sent, tail, wr, cl⟩) :=
        readUInt32_four sent (s % 2 ^ 32 / 2 ^ 24) (s % 2 ^ 24 / 2 ^ 16)
          (s % 2 ^ 16 / 2 ^ 8) (s % 2 ^ 8) tail wr cl
    _ = .ok (s, ⟨sent, tail, wr, cl⟩) := by
        rw [beUint32_putUint32BE, Nat.mod_eq_of_lt hs]

/-- Evaluating `Connect` on a connection whose writes succeed and whose
first delivered chunk is the 4-byte big-endian encoding of status `s`. -/
theorem connect_put_status (r s : Nat) (hs : s < 2 ^ 32) (sent : List Nat)
    (tail : List (Except Err (List Nat))) :
    Connect r (.ok ⟨sent, .ok (putUint32BE s) :: tail, [], false⟩) =
      if s = handlerExists then .ok ⟨sent ++ putUint32BE r, tail, [], false⟩
      else if s = nonMatchingHandlerExists then
        .ok ⟨sent ++ putUint32BE r, tail, [], false⟩
      else .error (.handler r) := by
  simp only [Connect, writeUInt32]
  rw [readUInt32_put s hs]

/-- Evaluating `handleConn` on a connection whose writes succeed and whose
first delivered chunk is the 4-byte big-endian encoding of the route tag. -/
theorem handleConn_put_tag {H : Type} (m : RouteMap H) (fb1 fb2 : Option H)
    (tag : Nat) (htag : tag < 2 ^ 32) (sent : List Nat)
    (tail : List (Except Err (List Nat))) :
    handleConn m fb1 fb2 ⟨sent, .ok (putUint32BE tag) :: tail, [], false⟩ =
      match lookupDispatch m fb1 fb2 tag with
      | (status, some h) =>
          .dispatched status h ⟨sent ++ putUint32BE status, tail, [], false⟩
      | (status, none) =>
          .rejected status ⟨sent ++ putUint32BE status, tail, [], true⟩ := by
  simp only [handleConn]
  rw [readUInt32_put tag htag]
  cases hld : lookupDispatch m fb1 fb2 tag with
  | mk status oh => cases oh <;> simp [writeUInt32, hld]

/-- C3, counterexample: the claim promises that a handshake read obtains
all 4 bytes of the peer message even when a single `Read` call returns
fewer. On a stream that delivers the bytes 1,2,3,4 split as a 1-byte chunk
followed by a 3-byte chunk, `readUInt32` issues one `Read`, gets only the
byte 1, and interprets the zero-padded buffer as 1 * 2^24 = 16777216 —
not the big-endian value 16909060 of the 4 delivered bytes. -/
theorem readUInt32_short_read_counterexample :
    readUInt32 ⟨[], [.ok [1], .ok [2, 3, 4]], [], false⟩ =
      .ok (16777216, ⟨[], [.ok [2, 3, 4]], [], false⟩) ∧
    beUint32 [1, 2, 3, 4] = 16909060 ∧ (16777216 : Nat) ≠ 16909060 := by
  refine ⟨?_, by decide, by decide⟩
  simp [readUInt32, beUint32]

/-- C3, amended: each handshake read issues a single `Read` call into a
zero-initialized 4-byte buffer and interprets the whole buffer big-endian
regardless of how many bytes that call returned; it obtains the 4 bytes of
the peer message exactly when that one call delivers all 4 at once, while a
call delivering fewer (here: one byte `c0`) yields the received bytes
zero-padded, i.e. `c0 * 2^24`. -/
theorem readUInt32_single_call (b0 b1 b2 b3 c0 : Nat) (h0 : b0 < 256)
    (h1 : b1 < 256) (h2 : b2 < 256) (h3 : b3 < 256) (hc : c0 < 256)
    (sent : List Nat) (tail : List (Except Err (List Nat)))
    (wr : List (Option Err)) :
    readUInt32 ⟨sent, .ok [b0, b1, b2, b3] :: tail, wr, false⟩ =
      .ok (((b0 * 256 + b1) * 256 + b2) * 256 + b3, ⟨sent, tail, wr, false⟩) ∧
    readUInt32 ⟨sent, .ok [c0] :: tail, wr, false⟩ =
      .ok (c0 * 2 ^ 24, ⟨sent, tail, wr, false⟩) := by
  have hfull : beUint32 [b0, b1, b2, b3] = ((b0 * 256 + b1) * 256 + b2) * 256 + b3 := by
    simp only [beUint32, List.foldl]
    omega
  have hone : beUint32 [c0, 0, 0, 0] = c0 * 2 ^ 24 := by
    simp only [beUint32, List.foldl]
    omega
  constructor
  · rw [readUInt32_four, hfull]
  · have hstep : readUInt32 ⟨sent, .ok [c0] :: tail, wr, false⟩ =
        .ok (beUint32 [c0, 0, 0, 0], ⟨sent, tail, wr, false⟩) := by
      simp [readUInt32]
    rw [hstep, hone]

/-- Witness for `readUInt32_single_call` at bytes 1,2,3,4 and single
byte 9. -/
theorem readUInt32_single_call_witness :
    readUInt32 ⟨[], [.ok [1, 2, 3, 4]], [], false⟩ =
      .ok (((1 * 256 + 2) * 256 + 3) * 256 + 4, ⟨[], [], [], false⟩) ∧
    readUInt32 ⟨[], [.ok [9]], [], false⟩ =
      .ok (9 * 2 ^ 24, ⟨[], [], [], false⟩) :=
  readUInt32_single_call 1 2 3 4 9 (by decide) (by decide) (by decide)
    (by decide) (by decide) [] [] []

/-- C5: on the receiver side, an I/O failure while reading the route tag or
while writing the status code ends processing of that one connection with no
handler invoked (the error is only logged, as the `abandonedRead` and
`abandonedWrite` outcomes), and the result of the `Run` accept loop never
depends on it: a loop that accepted such a connection continues exactly as
the loop over the remaining accept results. -/
theorem handleConn_io_failure_stays_local {H : Type} (m : RouteMap H)
    (fb : Option H) (e : Err) (sent : List Nat) (chunk : List Nat)
    (tail : List (Except Err (List Nat))) (wr : List (Option Err))
    (rest : List (Except Err Conn)) :
    handleConn m fb fb ⟨sent, .error e :: tail, wr, false⟩ = .abandonedRead e ∧
    handleConn m fb fb ⟨sent, .ok chunk :: tail, some e :: wr, false⟩ =
      .abandonedWrite e ∧
    runLoop (.ok ⟨sent, .error e :: tail, wr, false⟩ :: rest) =
      ((runLoop rest).1, ⟨sent, .error e :: tail, wr, false⟩ :: (runLoop rest).2) := by
  refine ⟨rfl, ?_, rfl⟩
  simp only [handleConn, readUInt32, writeUInt32]

/-- C6: `runLoop` keeps accepting through every successful accept and
returns exactly when `Accept` yields an error, returning that error
verbatim; and when `transporter.Open` fails inside `Connect`, that error is
returned verbatim with no connection and no retry. -/
theorem runLoop_accept_error_and_connect_open_error (oks : List Conn)
    (e : Err) (rest : List (Except Err Conn)) (r : Nat) :
    runLoop (oks.map Except.ok ++ Except.error e :: rest) = (some e, oks) ∧
    Connect r (.error e) = .error e := by
  refine ⟨?_, rfl⟩
  induction oks with
  | nil => rfl
  | cons c cs ih => simp [runLoop, ih]

/-- C8: with no exact handler for route 5, a dispatch that reads a set
fallback slot under `nhm.RLock` at line 195 (first read: `some 7`), and
then re-reads the slot at line 200 OUTSIDE any lock after a concurrent
`OffNonMatching` cleared it (second read: `none`), writes the
fallback-match status code 2 on the wire and then closes the connection
without invoking any handler — the interleaving the claim says can never
happen. The unlocked re-read also races the locked write itself. -/
theorem fallback_race_inconsistent_dispatch :
    handleConn (fun _ => none : RouteMap Nat) (some 7) none
        ⟨[], [.ok (putUint32BE 5)], [], false⟩ =
      .rejected nonMatchingHandlerExists
        ⟨putUint32BE nonMatchingHandlerExists, [], [], true⟩ := by
  decide

/-- C1: `Connect(r)` opens a connection via the transporter, writes `r` as a
4-byte big-endian integer, reads the 4-byte big-endian status back, and then
returns the still-open connection with no error when the status is the
exact-match or fallback-match code, while any other status yields no
connection and a `HandlerError` carrying `r`. Stated on a connection whose
writes succeed and whose stream delivers the 4 status bytes in one chunk. -/
theorem connect_status_branches (r s : Nat) (hs : s < 2 ^ 32) (sent : List Nat)
    (tail : List (Except Err (List Nat))) :
    (s = handlerExists ∨ s = nonMatchingHandlerExists →
      Connect r (.ok ⟨sent, .ok (putUint32BE s) :: tail, [], false⟩) =
        .ok ⟨sent ++ putUint32BE r, tail, [], false⟩) ∧
    (s ≠ handlerExists → s ≠ nonMatchingHandlerExists →
      Connect r (.ok ⟨sent, .ok (putUint32BE s) :: tail, [], false⟩) =
        .error (.handler r)) := by
  rw [connect_put_status r s hs sent tail]
  constructor
  · rintro (h | h) <;> simp [h]
  · intro h1 h2
    simp [h1, h2]

/-- Witness for `connect_status_branches` at route 9 with status 1
(exact match) and status 4 (no match). -/
theorem connect_status_branches_witness :
    Connect 9 (.ok ⟨[], [.ok (putUint32BE 1)], [], false⟩) =
      .ok ⟨[] ++ putUint32BE 9, [], [], false⟩ ∧
    Connect 9 (.ok ⟨[], [.ok (putUint32BE 4)], [], false⟩) =
      .error (.handler 9) :=
  ⟨(connect_status_branches 9 1 (by decide) [] []).1 (Or.inl rfl),
   (connect_status_branches 9 4 (by decide) [] []).2 (by decide) (by decide)⟩

/-- C2: for every received route tag, dispatch resolves the handler in
order — the exact-map entry when it is non-nil (status `handlerExists`),
else the fallback when set (status `nonMatchingHandlerExists`), else no
handler (status `handlerDoesNotExists`) — and after the status is written a
found handler is invoked with the connection (the `dispatched` outcome,
after which `handleConn` does nothing further with it), while with no
handler the Router itself closes the connection (the `rejected` outcome
with `closed := true`). Stated for a race-free dispatch, where both reads
of the fallback slot see the same value `fb`. -/
theorem handleConn_dispatch_order {H : Type} (m : RouteMap H) (fb : Option H)
    (tag : Nat) (htag : tag < 2 ^ 32) (sent : List Nat) :
    handleConn m fb fb ⟨sent, [.ok (putUint32BE tag)], [], false⟩ =
      match mapIndex m tag with
      | some h => .dispatched handlerExists h
          ⟨sent ++ putUint32BE handlerExists, [], [], false⟩
      | none =>
          match fb with
          | some h => .dispatched nonMatchingHandlerExists h
              ⟨sent ++ putUint32BE nonMatchingHandlerExists, [], [], false⟩
          | none => .rejected handlerDoesNotExists
              ⟨sent ++ putUint32BE handlerDoesNotExists, [], [], true⟩ := by
  rw [handleConn_put_tag m fb fb tag htag sent []]
  simp only [lookupDispatch]
  cases hmi : mapIndex m tag with
  | some h => rfl
  | none => cases fb <;> rfl

/-- Witness for `handleConn_dispatch_order`: route 5 is registered with
handler 3 and a fallback 7 is set; the exact handler wins with status 1. -/
theorem handleConn_dispatch_order_witness :
    handleConn (fun x => if x = 5 then some (some 3) else none : RouteMap Nat)
        (some 7) (some 7) ⟨[], [.ok (putUint32BE 5)], [], false⟩ =
      .dispatched handlerExists 3
        ⟨[] ++ putUint32BE handlerExists, [], [], false⟩ := by
  rw [handleConn_dispatch_order
    (fun x => if x = 5 then some (some 3) else none : RouteMap Nat)
    (some 7) 5 (by decide) []]
  decide

/-- C4: the three handshake status codes are pairwise-distinct non-zero
powers of two (exactly one bit set each), the wire encoding of a status is
always 4 bytes, and the status `handleConn` puts on the wire is the 4-byte
big-endian encoding of exactly the code chosen by the lookup outcome. -/
theorem status_codes_and_wire :
    (handlerExists = 2 ^ 0 ∧ nonMatchingHandlerExists = 2 ^ 1 ∧
      handlerDoesNotExists = 2 ^ 2) ∧
    (handlerExists ≠ 0 ∧ nonMatchingHandlerExists ≠ 0 ∧
      handlerDoesNotExists ≠ 0) ∧
    (handlerExists ≠ nonMatchingHandlerExists ∧
      handlerExists ≠ handlerDoesNotExists ∧
      nonMatchingHandlerExists ≠ handlerDoesNotExists) ∧
    (∀ d : Nat, (putUint32BE d).length = 4) ∧
    ∀ (H : Type) (m : RouteMap H) (fb : Option H) (tag : Nat),
      tag < 2 ^ 32 → ∀ sent : List Nat,
      (handleConn m fb fb ⟨sent, [.ok (putUint32BE tag)], [], false⟩).sentBytes =
        some (sent ++ putUint32BE (lookupDispatch m fb fb tag).1) := by
  refine ⟨by decide, by decide, by decide, fun d => rfl, ?_⟩
  intro H m fb tag htag sent
  rw [handleConn_put_tag m fb fb tag htag sent []]
  cases hld : lookupDispatch m fb fb tag with
  | mk status oh => cases oh <;> simp [HandleOutcome.sentBytes, hld]

/-- Witness for `status_codes_and_wire` on an empty registry at tag 8:
the wire carries the big-endian encoding of the chosen code. -/
theorem status_codes_and_wire_witness :
    (handleConn (fun _ => none : RouteMap Nat) none none
        ⟨[], [.ok (putUint32BE 8)], [], false⟩).sentBytes =
      some ([] ++
        putUint32BE (lookupDispatch (fun _ => none : RouteMap Nat) none none 8).1) :=
  status_codes_and_wire.2.2.2.2 Nat (fun _ => none) none 8 (by decide) []

/-- C7: registering a handler for `r` and then removing it leaves the route
map extensionally equal to removing `r` from the original map — and, when
`r` was not registered before, equal to the original map itself, so a
subsequent dispatch for `r` with no fallback resolves to no handler; and
`Off` on a map not containing `r` is a no-op. -/
theorem handle_off_cancel {H : Type} (m : RouteMap H) (r : Nat) (h : Option H) :
    Off (Handle m r h) r = Off m r ∧
    (m r = none → Off (Handle m r h) r = m) ∧
    lookupDispatch (Off (Handle m r h) r) none none r =
      (handlerDoesNotExists, none) ∧
    (m r = none → Off m r = m) := by
  have hoff : Off (Handle m r h) r = Off m r := by
    funext x
    simp only [Off, Handle]
    by_cases hx : x = r <;> simp [hx]
  have hnoop : m r = none → Off m r = m := by
    intro hm
    funext x
    simp only [Off]
    by_cases hx : x = r
    · subst hx
      rw [if_pos rfl, hm]
    · rw [if_neg hx]
  refine ⟨hoff, ?_, ?_, hnoop⟩
  · intro hm
    rw [hoff, hnoop hm]
  · simp [lookupDispatch, mapIndex, Off]

/-- Witness for `handle_off_cancel` on the empty registry at route 5. -/
theorem handle_off_cancel_witness :
    Off (Handle (fun _ => none : RouteMap Nat) 5 (some 1)) 5 =
      (fun _ => none : RouteMap Nat) ∧
    Off (fun _ => none : RouteMap Nat) 5 = (fun _ => none : RouteMap Nat) :=
  ⟨(handle_off_cancel (fun _ => none) 5 (some 1)).2.1 rfl,
   (handle_off_cancel (fun _ => none) 5 (some 1)).2.2.2 rfl⟩

/-- C9: every status value other than the exact-match code 1 and the
fallback-match code 2 — the no-match code 4 and any undefined value alike —
makes `Connect` return no connection and a `HandlerError` carrying the
requested route; there is no separate error for an unknown status. -/
theorem connect_unknown_status (r s : Nat) (hs : s < 2 ^ 32)
    (h1 : s ≠ handlerExists) (h2 : s ≠ nonMatchingHandlerExists)
    (sent : List Nat) (tail : List (Except Err (List Nat))) :
    Connect r (.ok ⟨sent, .ok (putUint32BE s) :: tail, [], false⟩) =
      .error (.handler r) := by
  rw [connect_put_status r s hs sent tail]
  simp [h1, h2]

/-- Witness for `connect_unknown_status` at route 11 with the no-match
code 4 and with the undefined status 99. -/
theorem connect_unknown_status_witness :
    Connect 11 (.ok ⟨[], [.ok (putUint32BE 4)], [], false⟩) =
      .error (.handler 11) ∧
    Connect 11 (.ok ⟨[], [.ok (putUint32BE 99)], [], false⟩) =
      .error (.handler 11) :=
  ⟨connect_unknown_status 11 4 (by decide) (by decide) (by decide) [] [],
   connect_unknown_status 11 99 (by decide) (by decide) (by decide) [] []⟩

/-- C10: `Handle(r, nil)` stores a nil entry whose key is present in the
map, yet dispatch for `r` behaves exactly as if no exact handler were
registered (identical to dispatch over the map with `r` deleted): it falls
through to the fallback when one is set and otherwise reports no-match and
closes the connection; a nil function is never invoked, since only a
non-nil handler can appear in a `dispatched` outcome. -/
theorem handle_nil_entry {H : Type} (m : RouteMap H) (fb : Option H) (r : Nat)
    (hr : r < 2 ^ 32) (sent : List Nat) :
    Handle m r none r = some none ∧
    handleConn (Handle m r none) fb fb ⟨sent, [.ok (putUint32BE r)], [], false⟩ =
      handleConn (Off m r) fb fb ⟨sent, [.ok (putUint32BE r)], [], false⟩ ∧
    (fb = none →
      handleConn (Handle m r none) fb fb ⟨sent, [.ok (putUint32BE r)], [], false⟩ =
        .rejected handlerDoesNotExists
          ⟨sent ++ putUint32BE handlerDoesNotExists, [], [], true⟩) ∧
    (∀ hh, fb = some hh →
      handleConn (Handle m r none) fb fb ⟨sent, [.ok (putUint32BE r)], [], false⟩ =
        .dispatched nonMatchingHandlerExists hh
          ⟨sent ++ putUint32BE nonMatchingHandlerExists, [], [], false⟩) := by
  have hmi : mapIndex (Handle m r none) r = none := by
    simp [mapIndex, Handle]
  have hmo : mapIndex (Off m r) r = none := by
    simp [mapIndex, Off]
  refine ⟨by simp [Handle], ?_, ?_, ?_⟩
  · rw [handleConn_put_tag _ fb fb r hr sent [],
      handleConn_put_tag _ fb fb r hr sent []]
    simp only [lookupDispatch, hmi, hmo]
  · intro hfb
    subst hfb
    rw [handleConn_put_tag _ none none r hr sent []]
    simp only [lookupDispatch, hmi]
  · intro hh hfb
    subst hfb
    rw [handleConn_put_tag _ (some hh) (some hh) r hr sent []]
    simp only [lookupDispatch, hmi]

/-- Witness for `handle_nil_entry`: a nil entry stored at route 5 on the
empty registry, with fallback handler 3 set. -/
theorem handle_nil_entry_witness :
    Handle (fun _ => none : RouteMap Nat) 5 none 5 = some none ∧
    handleConn (Handle (fun _ => none : RouteMap Nat) 5 none) (some 3) (some 3)
        ⟨[], [.ok (putUint32BE 5)], [], false⟩ =
      .dispatched nonMatchingHandlerExists 3
        ⟨[] ++ putUint32BE nonMatchingHandlerExists, [], [], false⟩ :=
  ⟨(handle_nil_entry (fun _ => none) (some 3) 5 (by decide) []).1,
   (handle_nil_entry (fun _ => none) (some 3) 5 (by decide) []).2.2.2 3 rfl⟩

end Bon
